import Mathlib

/-!
Formal model of the owpz/ksuid TypeScript library: the 128-bit unsigned
arithmetic type (src/uint128.ts), the compressed-set encoder and its
iterator/decoder (src/compressed-set.ts), together with the auxiliary sort
(src/sort.ts) and the error codes (src/errors.ts).

Modelling conventions:
- Node Buffers are lists of byte values (each cell of a Buffer is a uint8).
- JavaScript numbers and BigInts are modelled as Nat or Int; JavaScript
  bitwise operators on numbers truncate their operands to 32 bits via
  ToInt32, which is modelled explicitly with a mod 2^32 on the operands.
- BigInt masking with the nonnegative mask U64_MAX, that is x & (2^64 - 1),
  equals x mod 2^64 (Euclidean mod for possibly negative x, matching the
  two's-complement semantics of BigInt bitwise and).
- Fallible operations (constructors that throw) return an Except value over
  the error codes of src/errors.ts, plus a rangeError constructor standing
  for Node's RangeError thrown by out-of-range Buffer writes and copies.
-/

namespace Ksuid

abbrev Bytes := List Nat

/-- Big-endian serialization of a value into a fixed width of w bytes,
as performed by Buffer.writeUInt32BE and Buffer.writeBigUInt64BE. -/
def natToBytesBE : Nat → Nat → Bytes
  | 0, _ => []
  | w + 1, v => (v / 2 ^ (8 * w)) % 256 :: natToBytesBE w v

/-- Big-endian read of a byte list as an unsigned value, as performed by
Buffer.readUInt32BE and Buffer.readBigUInt64BE. -/
def bytesToNatBE : Bytes → Nat
  | [] => 0
  | b :: t => b * 2 ^ (8 * t.length) + bytesToNatBE t

theorem length_natToBytesBE (w v : Nat) : (natToBytesBE w v).length = w := by
  induction w generalizing v with
  | zero => rfl
  | succ w ih => simp [natToBytesBE, ih]

theorem bytesToNatBE_lt (l : Bytes) (h : ∀ x ∈ l, x < 256) :
    bytesToNatBE l < 2 ^ (8 * l.length) := by
  induction l with
  | nil => simp [bytesToNatBE]
  | cons b t ih =>
    have hb : b < 256 := h b (List.mem_cons_self ..)
    have ht : bytesToNatBE t < 2 ^ (8 * t.length) :=
      ih fun x hx => h x (List.mem_cons_of_mem _ hx)
    have : b * 2 ^ (8 * t.length) + bytesToNatBE t < (b + 1) * 2 ^ (8 * t.length) := by
      nlinarith
    calc bytesToNatBE (b :: t) = b * 2 ^ (8 * t.length) + bytesToNatBE t := rfl
      _ < (b + 1) * 2 ^ (8 * t.length) := this
      _ ≤ 256 * 2 ^ (8 * t.length) := by
          have : b + 1 ≤ 256 := hb
          exact Nat.mul_le_mul_right _ this
      _ = 2 ^ (8 * (t.length + 1)) := by ring
      _ = 2 ^ (8 * (b :: t).length) := by simp

theorem natToBytesBE_mod (w v : Nat) :
    natToBytesBE w (v % 2 ^ (8 * w)) = natToBytesBE w v := by
  induction w generalizing v with
  | zero => rfl
  | succ w ih =>
    simp only [natToBytesBE]
    rw [List.cons_eq_cons]
    refine ⟨?_, ?_⟩
    · have h2 : (2 : Nat) ^ (8 * (w + 1)) = 2 ^ (8 * w) * 256 := by
        rw [show 8 * (w + 1) = 8 * w + 8 by ring, pow_add]
        norm_num
      rw [h2, Nat.mod_mul_right_div_self]
      omega
    · have hdvd : (2 : Nat) ^ (8 * w) ∣ 2 ^ (8 * (w + 1)) :=
        pow_dvd_pow 2 (by omega)
      calc natToBytesBE w (v % 2 ^ (8 * (w + 1)))
          = natToBytesBE w (v % 2 ^ (8 * (w + 1)) % 2 ^ (8 * w)) := (ih _).symm
        _ = natToBytesBE w (v % 2 ^ (8 * w)) := by
            rw [Nat.mod_mod_of_dvd _ hdvd]
        _ = natToBytesBE w v := ih v

theorem natToBytesBE_bytesToNatBE (l : Bytes) (h : ∀ x ∈ l, x < 256) :
    natToBytesBE l.length (bytesToNatBE l) = l := by
  induction l with
  | nil => rfl
  | cons b t ih =>
    have hb : b < 256 := h b (List.mem_cons_self ..)
    have ht : bytesToNatBE t < 2 ^ (8 * t.length) :=
      bytesToNatBE_lt t fun x hx => h x (List.mem_cons_of_mem _ hx)
    simp only [List.length_cons, natToBytesBE, bytesToNatBE]
    rw [List.cons_eq_cons]
    refine ⟨?_, ?_⟩
    · have hM : 0 < 2 ^ (8 * t.length) := Nat.pos_pow_of_pos _ (by norm_num)
      have : (b * 2 ^ (8 * t.length) + bytesToNatBE t) / 2 ^ (8 * t.length) = b := by
        rw [Nat.add_comm, Nat.add_mul_div_right _ _ hM, Nat.div_eq_of_lt ht]
        omega
      rw [this, Nat.mod_eq_of_lt hb]
    · have hmod : (b * 2 ^ (8 * t.length) + bytesToNatBE t) % 2 ^ (8 * t.length)
          = bytesToNatBE t := by
        rw [Nat.add_comm, Nat.add_mul_mod_self_right, Nat.mod_eq_of_lt ht]
      calc natToBytesBE t.length (b * 2 ^ (8 * t.length) + bytesToNatBE t)
          = natToBytesBE t.length
              ((b * 2 ^ (8 * t.length) + bytesToNatBE t) % 2 ^ (8 * t.length)) :=
            (natToBytesBE_mod _ _).symm
        _ = natToBytesBE t.length (bytesToNatBE t) := by rw [hmod]
        _ = t := ih fun x hx => h x (List.mem_cons_of_mem _ hx)

/-- Error codes of src/errors.ts (KSUID_ERROR_CODES), plus rangeError for
Node's built-in RangeError raised by out-of-range Buffer writes/copies. -/
inductive Err where
  | invalidLength
  | invalidCharacter
  | invalidBufferSize
  | invalidTimestamp
  | invalidInput
  | malformedData
  | corruptionDetected
  | sequenceExhausted
  | operationFailed
  | rangeError
deriving DecidableEq

/-- The uint128 value type of src/uint128.ts, stored as two 64-bit halves. -/
structure Uint128 where
  low : Nat
  high : Nat
deriving DecidableEq

/-- The Uint128 constructor masks both halves with U64_MAX; on nonnegative
values the mask x & (2^64 - 1) equals x mod 2^64. -/
def mkU (low high : Nat) : Uint128 := ⟨low % 2 ^ 64, high % 2 ^ 64⟩

/-- BigInt masking with U64_MAX of a possibly negative value: BigInt bitwise
and uses two's-complement semantics, so x & (2^64 - 1) is the Euclidean
x mod 2^64. -/
def mask64Int (x : Int) : Nat := (x % 2 ^ 64).toNat

def U64MAX : Nat := 0xffffffffffffffff

def uZero : Uint128 := mkU 0 0

def uOne : Uint128 := mkU 1 0

def uMax : Uint128 := mkU U64MAX U64MAX

/-- Uint128.add: add with carry handling (src/uint128.ts lines 81-89). -/
def Uint128.add (a b : Uint128) : Uint128 :=
  let lowSum := a.low + b.low
  let carry : Nat := if lowSum > U64MAX then 1 else 0
  mkU lowSum (a.high + b.high + carry)

/-- Uint128.sub: subtract with borrow handling (src/uint128.ts lines 91-104).
The low half is adjusted by 2^64 when negative; the high half is computed on
BigInts and masked with U64_MAX. -/
def Uint128.sub (a b : Uint128) : Uint128 :=
  if a.low < b.low then
    mkU (a.low + 2 ^ 64 - b.low) (mask64Int ((a.high : Int) - (b.high : Int) - 1))
  else
    mkU (a.low - b.low) (mask64Int ((a.high : Int) - (b.high : Int)))

/-- Uint128.incr (src/uint128.ts lines 106-113). -/
def Uint128.incr (a : Uint128) : Uint128 :=
  let newLow := a.low + 1
  let carry : Nat := if newLow > U64MAX then 1 else 0
  mkU newLow (a.high + carry)

/-- Uint128.decr (src/uint128.ts lines 115-126). -/
def Uint128.decr (a : Uint128) : Uint128 :=
  if a.low = 0 then
    mkU (a.low + 2 ^ 64 - 1) (mask64Int ((a.high : Int) - 1))
  else
    mkU (a.low - 1) (mask64Int (a.high : Int))

/-- Semantic value of a Uint128: high * 2^64 + low. -/
def Uint128.toNat (a : Uint128) : Nat := a.high * 2 ^ 64 + a.low

/-- Uint128.bytes: 16-byte big-endian buffer, high half first
(src/uint128.ts lines 64-69). -/
def Uint128.bytes (a : Uint128) : Bytes :=
  natToBytesBE 8 a.high ++ natToBytesBE 8 a.low

/-- Uint128.makeUint128FromPayload (src/uint128.ts lines 21-34): requires a
16-byte buffer, reads the high half from bytes 0-7 and the low half from
bytes 8-15; throws an invalid-buffer-length KSUIDError otherwise. -/
def makeUint128FromPayload (payload : Bytes) : Except Err Uint128 :=
  if payload.length ≠ 16 then
    .error .invalidBufferSize
  else
    .ok (mkU (bytesToNatBE ((payload.drop 8).take 8)) (bytesToNatBE (payload.take 8)))

/-- Uint128.uint128Payload (src/uint128.ts lines 36-40): the 16-byte payload
of a 20-byte KSUID buffer, skipping the 4 timestamp bytes. -/
def uint128Payload (buffer : Bytes) : Except Err Uint128 :=
  makeUint128FromPayload ((buffer.drop 4).take 16)

/-- Uint128.ksuid (src/uint128.ts lines 55-61): a 20-byte KSUID buffer from a
timestamp and this payload. The callers check timestamp < 2^32 where
Buffer.writeUInt32BE would throw. -/
def ksuidOfU (a : Uint128) (timestamp : Nat) : Bytes :=
  natToBytesBE 4 timestamp ++ natToBytesBE 8 a.high ++ natToBytesBE 8 a.low

/-- C6: for Uint128 values with both halves in 64-bit range, add is addition
modulo 2^128 and sub is subtraction modulo 2^128 (stated over Nat as
a + 2^128 - b modulo 2^128); both halves of each result are again in 64-bit
range (the carry/borrow is absorbed exactly once at the half boundary by the
final mask), add(max, one) = zero and sub(zero, one) = max. -/
theorem c6_uint128_add_sub (a b : Uint128)
    (ha1 : a.low < 2 ^ 64) (ha2 : a.high < 2 ^ 64)
    (hb1 : b.low < 2 ^ 64) (hb2 : b.high < 2 ^ 64) :
    (a.add b).toNat = (a.toNat + b.toNat) % 2 ^ 128 ∧
    (a.sub b).toNat = (a.toNat + 2 ^ 128 - b.toNat) % 2 ^ 128 ∧
    (a.add b).low < 2 ^ 64 ∧ (a.add b).high < 2 ^ 64 ∧
    (a.sub b).low < 2 ^ 64 ∧ (a.sub b).high < 2 ^ 64 ∧
    uMax.add uOne = uZero ∧ uZero.sub uOne = uMax := by
  refine ⟨?_, ?_, ?_, ?_, ?_, ?_, by decide, by decide⟩
  · simp only [Uint128.add, Uint128.toNat, mkU, U64MAX]
    try split
    all_goals omega
  · simp only [Uint128.sub, Uint128.toNat, mkU, mask64Int, U64MAX]
    try split
    all_goals try dsimp only
    all_goals omega
  · simp only [Uint128.add, mkU, U64MAX]
    try split
    all_goals omega
  · simp only [Uint128.add, mkU, U64MAX]
    try split
    all_goals omega
  · simp only [Uint128.sub, mkU, mask64Int, U64MAX]
    try split
    all_goals try dsimp only
    all_goals omega
  · simp only [Uint128.sub, mkU, mask64Int, U64MAX]
    try split
    all_goals try dsimp only
    all_goals omega

/-- Witness for C6 at the concrete pair (5,7) and (11,13). -/
theorem c6_witness :
    ((5 : Nat) < 2 ^ 64 ∧ (7 : Nat) < 2 ^ 64 ∧ (11 : Nat) < 2 ^ 64 ∧ (13 : Nat) < 2 ^ 64) ∧
    ((Uint128.mk 5 7).add (Uint128.mk 11 13)).toNat
      = ((Uint128.mk 5 7).toNat + (Uint128.mk 11 13).toNat) % 2 ^ 128 :=
  ⟨⟨by decide, by decide, by decide, by decide⟩,
    (c6_uint128_add_sub ⟨5, 7⟩ ⟨11, 13⟩ (by decide) (by decide) (by decide) (by decide)).1⟩

/-- C7: incr coincides with add(x, one) and decr with sub(x, one) on every
Uint128 value, and the wraparound identities max.incr = zero and
zero.decr = max hold. -/
theorem c7_incr_decr (x : Uint128) :
    x.incr = x.add uOne ∧ x.decr = x.sub uOne ∧
    uMax.incr = uZero ∧ uZero.decr = uMax := by
  refine ⟨?_, ?_, by decide, by decide⟩
  · simp only [Uint128.incr, Uint128.add, uOne, mkU, U64MAX, Uint128.mk.injEq]
    norm_num
  · simp only [Uint128.decr, Uint128.sub, uOne, mkU, U64MAX, mask64Int,
      Uint128.mk.injEq]
    by_cases h : x.low = 0
    · simp [h]
    · simp only [h, if_false]
      rw [if_neg (by omega)]
      simp

/-- CompressedSet.varintLength64 (src/compressed-set.ts lines 240-249). The
argument and the mask literals are JavaScript numbers: the bitwise and
converts both operands with ToInt32, keeping only their low 32 bits, which is
modelled by the mod 2^32 on both operands of every mask test. One further
host detail is deliberately not modelled: the first mask literal
0xffffffffffffff00 is not exactly representable as a double and rounds to
2^64, whose low 32 bits are zero, so the deployed helper in fact returns 1
for every input; the model keeps the written mask bits modulo 2^32, making it
no more broken than the source — both return 1 at every input the theorems
below exercise, including the failing input 2^32 of C3. -/
def varintLength64 (v : Nat) : Nat :=
  if (v % 2 ^ 32) &&& (0xffffffffffffff00 % 2 ^ 32) = 0 then 1
  else if (v % 2 ^ 32) &&& (0xffffffffffff0000 % 2 ^ 32) = 0 then 2
  else if (v % 2 ^ 32) &&& (0xffffffffff000000 % 2 ^ 32) = 0 then 3
  else if (v % 2 ^ 32) &&& (0xffffffff00000000 % 2 ^ 32) = 0 then 4
  else if (v % 2 ^ 32) &&& (0xffffff0000000000 % 2 ^ 32) = 0 then 5
  else if (v % 2 ^ 32) &&& (0xffff000000000000 % 2 ^ 32) = 0 then 6
  else if (v % 2 ^ 32) &&& (0xff00000000000000 % 2 ^ 32) = 0 then 7
  else 8

/-- CompressedSet.varintLength64BigInt (src/compressed-set.ts lines 251-260):
the BigInt variant, whose masks are applied at full width. -/
def varintLength64BigInt (v : Nat) : Nat :=
  if v &&& 0xffffffffffffff00 = 0 then 1
  else if v &&& 0xffffffffffff0000 = 0 then 2
  else if v &&& 0xffffffffff000000 = 0 then 3
  else if v &&& 0xffffffff00000000 = 0 then 4
  else if v &&& 0xffffff0000000000 = 0 then 5
  else if v &&& 0xffff000000000000 = 0 then 6
  else if v &&& 0xff00000000000000 = 0 then 7
  else 8

/-- CompressedSet.varintLength32 (src/compressed-set.ts lines 262-267); the
masks fit in 32 bits, so ToInt32 truncation only affects the value operand. -/
def varintLength32 (v : Nat) : Nat :=
  if (v % 2 ^ 32) &&& 0xffffff00 = 0 then 1
  else if (v % 2 ^ 32) &&& 0xffff0000 = 0 then 2
  else if (v % 2 ^ 32) &&& 0xff000000 = 0 then 3
  else 4

/-- CompressedSet.varintLength128 (src/compressed-set.ts lines 232-238). -/
def varintLength128 (v : Uint128) : Nat :=
  if v.high ≠ 0 then 8 + varintLength64BigInt v.high
  else varintLength64BigInt v.low

/-- CompressedSet.appendVarint128 (lines 269-277): the trailing length bytes
of the 16-byte big-endian serialization. -/
def appendVarint128 (v : Uint128) (length : Nat) : Bytes :=
  v.bytes.drop (16 - length)

/-- CompressedSet.appendVarint64 (lines 279-288). -/
def appendVarint64 (v : Nat) (length : Nat) : Bytes :=
  (natToBytesBE 8 v).drop (8 - length)

/-- CompressedSet.appendVarint32 (lines 290-299). -/
def appendVarint32 (v : Nat) (length : Nat) : Bytes :=
  (natToBytesBE 4 v).drop (4 - length)

/-- C3 (code bug): varintLength64, the JavaScript-number helper used for the
PayloadRange count field, does not return the minimal trailing-byte count:
ToInt32 truncation erases the upper 32 bits of the masks (the 4th to 7th
masks become 0 on their low 32 bits), so the value 2^32 — which needs 5
bytes, as the width-safe BigInt variant computes — is assigned length 1, and
its emitted single byte zero-extends back to 0 rather than 2^32. -/
theorem c3_varintLength64_not_minimal :
    varintLength64 (2 ^ 32) = 1 ∧
    256 ≤ 2 ^ 32 ∧
    varintLength64BigInt (2 ^ 32) = 5 ∧
    bytesToNatBE (List.replicate (8 - varintLength64 (2 ^ 32)) 0
      ++ appendVarint64 (2 ^ 32) (varintLength64 (2 ^ 32))) = 0 ∧
    (2 : Nat) ^ 32 ≠ 0 := by
  refine ⟨by decide, by norm_num, by decide, by decide, by positivity⟩

/-- Well-formedness of a KSUID buffer: the KSUID class holds exactly 20 bytes
(every constructor checks the length), and Buffer cells are uint8 values. -/
def KSwf (b : Bytes) : Prop := b.length = 20 ∧ ∀ x ∈ b, x < 256

instance (b : Bytes) : Decidable (KSwf b) := by
  unfold KSwf
  infer_instance

/-- A KSUID object, identified with its 20-byte buffer (src/ksuid.ts wraps a
Buffer whose length is validated to be 20 by every constructor). -/
abbrev KS : Type := { b : Bytes // KSwf b }

/-- Default element used to model out-of-bounds array reads (unreachable in
the executions considered); its value is the nil KSUID. -/
def dKS : KS := ⟨List.replicate 20 0, by decide⟩

/-- Buffer.compare as used by KSUID.compare: lexicographic by byte, with a
shorter buffer that is a prefix of the longer ordered first. -/
def lexCompare : Bytes → Bytes → Int
  | [], [] => 0
  | [], _ :: _ => -1
  | _ :: _, [] => 1
  | x :: t, y :: u => if x < y then -1 else if y < x then 1 else lexCompare t u

/-- isSorted (src/sort.ts lines 15-27): false as soon as some element
compares greater than its successor. -/
def isSortedKS : List KS → Bool
  | a :: b :: tl => if lexCompare a.val b.val > 0 then false else isSortedKS (b :: tl)
  | _ => true

/-- The deduplication loop of appendCompressed (src/compressed-set.ts lines
80-89). The source keys the seen-set by id.toString(); Base62 encoding is an
injective function of the 20-byte buffer, so membership is byte equality. -/
def dedupGo (seen : List KS) : List KS → List KS
  | [] => []
  | id :: tl => if id ∈ seen then dedupGo seen tl else id :: dedupGo (id :: seen) tl

/-- The JavaScript array destructuring swap of two indices. -/
def listSwap (l : List KS) (i j : Nat) : List KS :=
  (l.set i (l.getD j dKS)).set j (l.getD i dKS)

/-- The partition loop of quickSort (src/sort.ts lines 44-50): j scans from
lo to hi-1; i1 is the position of the next swap — the source's i + 1, where i
starts at lo - 1 and is incremented before each swap, so i1 also equals the
source's value of i right after the post-loop increment. -/
def qsLoop (a : List KS) (pivot : KS) (i1 j hi : Nat) : List KS × Nat :=
  if _h : j < hi then
    if lexCompare (a.getD j dKS).val pivot.val < 0 then
      qsLoop (listSwap a i1 j) pivot (i1 + 1) (j + 1) hi
    else
      qsLoop a pivot i1 (j + 1) hi
  else (a, i1)
termination_by hi - j

theorem qsLoop_bounds (n : Nat) :
    ∀ (a : List KS) (pivot : KS) (i1 j hi : Nat), hi - j ≤ n → i1 ≤ j →
      i1 ≤ (qsLoop a pivot i1 j hi).2 ∧ (qsLoop a pivot i1 j hi).2 ≤ max j hi := by
  induction n with
  | zero =>
    intro a pivot i1 j hi h1 h2
    rw [qsLoop, dif_neg (by omega : ¬ j < hi)]
    simp
    omega
  | succ n ih =>
    intro a pivot i1 j hi h1 h2
    rw [qsLoop]
    by_cases hj : j < hi
    · rw [dif_pos hj]
      by_cases hc : lexCompare ((a.getD j dKS)).val pivot.val < 0
      · rw [if_pos hc]
        have := ih (listSwap a i1 j) pivot (i1 + 1) (j + 1) hi (by omega) (by omega)
        omega
      · rw [if_neg hc]
        have := ih a pivot i1 (j + 1) hi (by omega) (by omega)
        omega
    · rw [dif_neg hj]
      simp
      omega

/-- The pivot index after partitioning: the source's i after the post-loop
increment (src/sort.ts line 51). -/
def qsPivotIdx (a : List KS) (lo hi : Nat) : Nat :=
  (qsLoop a (a.getD hi dKS) lo lo hi).2

/-- The array after the partition loop and the conditional final pivot swap
(src/sort.ts lines 52-54). -/
def qsPartitioned (a : List KS) (lo hi : Nat) : List KS :=
  let a1 := (qsLoop a (a.getD hi dKS) lo lo hi).1
  let i := qsPivotIdx a lo hi
  if lexCompare (a1.getD hi dKS).val (a1.getD i dKS).val < 0 then listSwap a1 i hi else a1

theorem qsPivotIdx_bounds (a : List KS) (lo hi : Nat) (h : lo < hi) :
    lo ≤ qsPivotIdx a lo hi ∧ qsPivotIdx a lo hi ≤ hi := by
  have := qsLoop_bounds (hi - lo) a (a.getD hi dKS) lo lo hi (by omega) (le_refl lo)
  unfold qsPivotIdx
  omega

/-- quickSort (src/sort.ts lines 39-59), as a function on the array value. -/
def quickSortGo (a : List KS) (lo hi : Nat) : List KS :=
  if h : lo < hi then
    quickSortGo (quickSortGo (qsPartitioned a lo hi) lo (qsPivotIdx a lo hi - 1))
      (qsPivotIdx a lo hi + 1) hi
  else a
termination_by hi + 1 - lo
decreasing_by
  · have := qsPivotIdx_bounds a lo hi h
    omega
  · have := qsPivotIdx_bounds a lo hi h
    omega

/-- sort (src/sort.ts lines 7-10). -/
def sortKS (ids : List KS) : List KS :=
  if ids.length ≤ 1 then ids else quickSortGo ids 0 (ids.length - 1)

/-- The timestamp getter: readUInt32BE on the first 4 buffer bytes. -/
def ksTimestamp (k : KS) : Nat := bytesToNatBE (k.val.take 4)

/-- Uint128.uint128Payload applied to the 20-byte KSUID buffer: the length
check always passes by the KS invariant; the high half is bytes 4-11 and the
low half bytes 12-19. -/
def ksPayloadU (k : KS) : Uint128 :=
  mkU (bytesToNatBE ((k.val.drop 12).take 8)) (bytesToNatBE ((k.val.drop 4).take 8))

/-- CompressedSet.rangeLength (src/compressed-set.ts lines 191-229): scans
ids for an unbroken run of payloads each one more than the previous at the
same timestamp; length counts genuine continuations, count counts all
consumed elements (including duplicate skips, which cannot occur after
deduplication). -/
def rangeLen : List KS → Nat → KS → Uint128 → Nat × Nat
  | [], _, _, _ => (0, 0)
  | id :: tl, ts, lastK, curV =>
    if id = lastK then
      let p := rangeLen tl ts lastK curV
      (p.1, p.2 + 1)
    else if ksTimestamp id ≠ ts then (0, 0)
    else if ksPayloadU id = curV.add uOne then
      let p := rangeLen tl ts id (ksPayloadU id)
      (p.1 + 1, p.2 + 1)
    else (0, 0)

/-- The per-element encoding loop of appendCompressed (src/compressed-set.ts
lines 111-186), with the list of still-unprocessed elements in place of the
index i. In the PayloadRange branch the source advances i by count and, since
count never exceeds the number of remaining elements, the i < uniqueIds.length
test always succeeds and the break is dead; the assignment of lastValue to
the payload of the last consumed element (line 169) is then unconditionally
overwritten by the `lastValue = v` at the end of the loop body (line 185), so
the recursion continues with v, the payload of the first element of the run.
The fuel argument makes the recursion structural; every call passes at least
the length of the list (each step consumes at least one element and
decrements fuel by one), so the fuel-exhausted case is unreachable. -/
def encodeLoop : Nat → List KS → Nat → Uint128 → Bytes
  | _, [], _, _ => []
  | 0, _ :: _, _, _ => []
  | fuel + 1, id :: rest, timestamp, lastValue =>
    let t := ksTimestamp id
    let v := ksPayloadU id
    if t ≠ timestamp then
      let delta := t - timestamp
      let deltaLength := varintLength32 delta
      ((64 ||| deltaLength) :: appendVarint32 delta deltaLength)
        ++ id.val.drop 4 ++ encodeLoop fuel rest t v
    else
      let delta := v.sub lastValue
      if delta ≠ uOne then
        let deltaLength := varintLength128 delta
        ((128 ||| deltaLength) :: appendVarint128 delta deltaLength)
          ++ encodeLoop fuel rest timestamp v
      else
        let lc := rangeLen rest timestamp id v
        if 0 < lc.1 then
          let rangeSize := lc.1 + 1
          let rangeSizeLength := varintLength64 rangeSize
          ((192 ||| rangeSizeLength) :: appendVarint64 rangeSize rangeSizeLength)
            ++ (if lc.2 ≤ rest.length then encodeLoop fuel (rest.drop lc.2) timestamp v
                else [])
        else
          let deltaLength := varintLength128 delta
          ((128 ||| deltaLength) :: appendVarint128 delta deltaLength)
            ++ encodeLoop fuel rest timestamp v

/-- CompressedSet.appendCompressed (src/compressed-set.ts lines 74-189):
dedupe, sort if needed, then one Raw record (tag byte 0 plus the literal
20-byte buffer) followed by the loop's records. The preallocated output
capacity is not modelled; all writes stay within capacity for the inputs
considered here. -/
def appendCompressed (ids : List KS) : Bytes :=
  if ids.isEmpty then []
  else
    let u0 := dedupGo [] ids
    let uniqueIds := if isSortedKS u0 then u0 else sortKS u0
    match uniqueIds with
    | [] => []
    | first :: rest =>
      0 :: (first.val ++ encodeLoop rest.length rest (ksTimestamp first) (ksPayloadU first))

/-- CompressedSet.compress (src/compressed-set.ts lines 23-28): allocates a
working buffer and returns the prefix written by appendCompressed; the
allocation itself is not observable in the byte-list model. -/
def compress (ids : List KS) : Bytes := appendCompressed ids

/-- A 20-byte KSUID buffer from a timestamp and a payload value. -/
def ksBytes (timestamp payload : Nat) : Bytes :=
  natToBytesBE 4 timestamp ++ natToBytesBE 16 payload

/-- KSUID.fromBytes (src/ksuid.ts lines 68-78): requires exactly 20 bytes,
otherwise throws the invalid-buffer-length KSUIDError. -/
def ksuidFromBytes (b : Bytes) : Except Err Bytes :=
  if b.length ≠ 20 then .error .invalidBufferSize else .ok b

/-- The mutable state of CompressedSetIter (src/compressed-set.ts lines
305-316). -/
structure IterState where
  content : Bytes
  offset : Nat
  seqlength : Nat
  timestamp : Nat
  lastValue : Uint128
  ksuid : Bytes
deriving DecidableEq

/-- A fresh iterator over a buffer: offset 0, no pending range, timestamp 0,
zero lastValue, current ksuid = KSUID.nil. -/
def initIter (content : Bytes) : IterState :=
  ⟨content, 0, 0, 0, uZero, List.replicate 20 0⟩

/-- CompressedSetIter.next (src/compressed-set.ts lines 322-419). Returns the
boolean result together with the updated state, or the error thrown. The tag
byte is split with b & mask and b & ~mask where mask = 0b11000000; field
reads model Buffer.subarray, which clamps to the available bytes, and the
readVarint helpers, which zero-extend a short field on the left and throw a
RangeError when the field is declared longer than the target width. The
ts < 2^32 guards model Buffer.writeUInt32BE, which throws a RangeError on an
out-of-range timestamp; seqlength - 1 for an empty range gives 0 instead of
the source's -1, which is indistinguishable by the seqlength > 0 test. -/
def iterNext (s : IterState) : Except Err (Bool × IterState) :=
  if s.seqlength > 0 then
    let value := s.lastValue.incr
    if s.timestamp < 2 ^ 32 then
      .ok (true, { s with ksuid := ksuidOfU value s.timestamp,
                          seqlength := s.seqlength - 1, lastValue := value })
    else .error .rangeError
  else if s.offset ≥ s.content.length then
    .ok (false, s)
  else
    let b := s.content.getD s.offset 0 % 256
    let off := s.offset + 1
    let tag := b &&& 192
    let cnt := b &&& 63
    if tag = 0 then
      let ksuidBuffer := (s.content.drop off).take 20
      match ksuidFromBytes ksuidBuffer with
      | .error e => .error e
      | .ok k =>
        match uint128Payload k with
        | .error e => .error e
        | .ok u =>
          .ok (true, { s with offset := off + 20, ksuid := k,
                              timestamp := bytesToNatBE (k.take 4), lastValue := u })
    else if tag = 64 then
      let deltaBuffer := (s.content.drop off).take cnt
      if deltaBuffer.length > 4 then .error .rangeError
      else
        let delta := bytesToNatBE (List.replicate (4 - deltaBuffer.length) 0 ++ deltaBuffer)
        let off2 := off + cnt
        let ts := s.timestamp + delta
        if ts < 2 ^ 32 then
          let payloadBuffer := (s.content.drop off2).take 16
          let kb := natToBytesBE 4 ts
            ++ (payloadBuffer ++ List.replicate (16 - payloadBuffer.length) 0)
          match ksuidFromBytes kb with
          | .error e => .error e
          | .ok k =>
            match uint128Payload k with
            | .error e => .error e
            | .ok u =>
              .ok (true, { s with offset := off2 + 16, ksuid := k,
                                  timestamp := ts, lastValue := u })
        else .error .rangeError
    else if tag = 128 then
      let deltaBuffer := (s.content.drop off).take cnt
      if deltaBuffer.length > 16 then .error .rangeError
      else
        match makeUint128FromPayload
            (List.replicate (16 - deltaBuffer.length) 0 ++ deltaBuffer) with
        | .error e => .error e
        | .ok delta =>
          let value := s.lastValue.add delta
          if s.timestamp < 2 ^ 32 then
            .ok (true, { s with offset := off + cnt,
                                ksuid := ksuidOfU value s.timestamp, lastValue := value })
          else .error .rangeError
    else if tag = 192 then
      let lengthBuffer := (s.content.drop off).take cnt
      if lengthBuffer.length > 8 then .error .rangeError
      else
        let rangeLength := bytesToNatBE (List.replicate (8 - lengthBuffer.length) 0 ++ lengthBuffer)
        let value := s.lastValue.incr
        if s.timestamp < 2 ^ 32 then
          .ok (true, { s with offset := off + cnt,
                              ksuid := ksuidOfU value s.timestamp,
                              seqlength := rangeLength - 1, lastValue := value })
        else .error .rangeError
    else .error .malformedData

/-- The toArray loop (src/compressed-set.ts lines 47-54): repeatedly call
next, collecting the current ksuid after every true result, until next
returns false or throws. The fuel argument bounds the number of iterations;
a some result means the loop finished within the given fuel. -/
def runIter : Nat → IterState → Option (Except Err (List Bytes))
  | 0, _ => none
  | fuel + 1, s =>
    match iterNext s with
    | .error e => some (.error e)
    | .ok (false, _) => some (.ok [])
    | .ok (true, s') =>
      match runIter fuel s' with
      | none => none
      | some (.error e) => some (.error e)
      | some (.ok l) => some (.ok (s'.ksuid :: l))

/-- Strict ascending order in the 20-byte lexicographic buffer order, the
ordering the specification asserts for decoded sequences. -/
def strictlyAscending : List Bytes → Bool
  | x :: y :: tl => if lexCompare x y < 0 then strictlyAscending (y :: tl) else false
  | _ => true

set_option maxRecDepth 4000 in
theorem land192_cases : ∀ b : Nat, b < 256 →
    b &&& 192 = 0 ∨ b &&& 192 = 64 ∨ b &&& 192 = 128 ∨ b &&& 192 = 192 := by decide

theorem ksuidFromBytes_err (b : Bytes) (e : Err) (h : ksuidFromBytes b = .error e) :
    e = Err.invalidBufferSize := by
  unfold ksuidFromBytes at h
  split at h <;> simp_all

theorem makeUint128FromPayload_err (b : Bytes) (e : Err)
    (h : makeUint128FromPayload b = .error e) : e = Err.invalidBufferSize := by
  unfold makeUint128FromPayload at h
  split at h <;> simp_all

set_option maxHeartbeats 1000000 in
theorem iterNext_ne_malformed (s : IterState) :
    iterNext s ≠ Except.error Err.malformedData := by
  intro h
  have htag := land192_cases ((s.content.getD s.offset 0) % 256)
    (Nat.mod_lt _ (by norm_num))
  simp only [iterNext] at h
  repeat (any_goals (split at h))
  all_goals first
    | exact Except.noConfusion h
    | exact Except.noConfusion h fun hh => Err.noConfusion hh
    | (rename_i e heq
       injection h with he
       subst he
       first
         | exact Err.noConfusion (ksuidFromBytes_err _ _ heq)
         | exact Err.noConfusion (makeUint128FromPayload_err _ _ heq))
    | (rcases htag with h1 | h1 | h1 | h1 <;> omega)

/-- C4 counterexample: the buffer consisting of the single byte 66 — a
TimeDelta tag declaring a 2-byte delta field with no bytes following — is
truncated before the declared field length is satisfied, yet next() raises no
MalformedData error: it silently zero-extends the missing delta and payload
bytes and yields the nil identifier. -/
theorem c4_counterexample :
    iterNext (initIter [66])
      = .ok (true, ⟨[66], 19, 0, 0, uZero, List.replicate 20 0⟩) ∧
    iterNext (initIter [66]) ≠ .error Err.malformedData :=
  ⟨rfl, iterNext_ne_malformed _⟩

/-- C4 amended: next() never fails with MalformedData: the top two bits of
any tag byte always match one of the four record kinds, so the unrecognized-
tag branch is dead code; a truncated buffer is not reported as MalformedData
either — truncated varint or payload fields are silently zero-extended (the
single byte 65 decodes to the nil identifier without error), while a Raw
record truncated before its 20 bytes raises the invalid-buffer-size error of
KSUID.fromBytes instead. -/
theorem c4_malformed_never_raised :
    (∀ s : IterState, iterNext s ≠ Except.error Err.malformedData) ∧
    iterNext (initIter [65])
      = .ok (true, ⟨[65], 18, 0, 0, uZero, List.replicate 20 0⟩) ∧
    iterNext (initIter [0]) = .error Err.invalidBufferSize :=
  ⟨iterNext_ne_malformed, rfl, rfl⟩

/-- C8 counterexample: a 15-byte buffer makes construction fail with the
InvalidBufferSize error code, not the InvalidLength code the claim names
(InvalidLength is the code used for string-length errors). -/
theorem c8_counterexample :
    makeUint128FromPayload (List.replicate 15 0) = .error Err.invalidBufferSize ∧
    Err.invalidBufferSize ≠ Err.invalidLength :=
  ⟨rfl, by decide⟩

/-- C8 amended: for byte buffers, construction fails with the
InvalidBufferSize error kind exactly when the length differs from 16, and on
a 16-byte buffer the constructed Uint128 serializes back to the original
buffer byte for byte. -/
theorem c8_bytes_roundtrip (b : Bytes) (hb : ∀ x ∈ b, x < 256) :
    (b.length ≠ 16 → makeUint128FromPayload b = .error Err.invalidBufferSize) ∧
    (b.length = 16 → (makeUint128FromPayload b).map Uint128.bytes = .ok b) := by
  constructor
  · intro h
    unfold makeUint128FromPayload
    rw [if_pos h]
  · intro h
    unfold makeUint128FromPayload
    rw [if_neg (by omega)]
    simp only [Except.map]
    have h1 : (b.take 8).length = 8 := by simp [h]
    have h2 : ((b.drop 8).take 8).length = 8 := by simp [h]
    have hb1 : ∀ x ∈ b.take 8, x < 256 := fun x hx => hb x (List.take_subset _ _ hx)
    have hb2 : ∀ x ∈ (b.drop 8).take 8, x < 256 := fun x hx =>
      hb x (List.drop_subset _ _ (List.take_subset _ _ hx))
    have hlt1 : bytesToNatBE (b.take 8) < 2 ^ 64 := by
      have := bytesToNatBE_lt _ hb1
      rw [h1] at this
      norm_num at this
      exact this
    have hlt2 : bytesToNatBE ((b.drop 8).take 8) < 2 ^ 64 := by
      have := bytesToNatBE_lt _ hb2
      rw [h2] at this
      norm_num at this
      exact this
    unfold mkU Uint128.bytes
    dsimp only
    rw [Nat.mod_eq_of_lt hlt2, Nat.mod_eq_of_lt hlt1]
    have e1 : natToBytesBE 8 (bytesToNatBE (b.take 8)) = b.take 8 := by
      have := natToBytesBE_bytesToNatBE (b.take 8) hb1
      rwa [h1] at this
    have e2 : natToBytesBE 8 (bytesToNatBE ((b.drop 8).take 8)) = (b.drop 8).take 8 := by
      have := natToBytesBE_bytesToNatBE ((b.drop 8).take 8) hb2
      rwa [h2] at this
    have e3 : List.take 8 (List.drop 8 b) = List.drop 8 b :=
      List.take_of_length_le (by simp [h])
    rw [e1, e2, e3, List.take_append_drop]

/-- Witness for C8 at a concrete 16-byte buffer. -/
theorem c8_witness :
    (∀ x ∈ [0, 1, 2, 3, 4, 5, 6, 7, 8, 9, 10, 11, 12, 13, 250, 255], x < 256) ∧
    (makeUint128FromPayload [0, 1, 2, 3, 4, 5, 6, 7, 8, 9, 10, 11, 12, 13, 250, 255]).map
        Uint128.bytes
      = .ok [0, 1, 2, 3, 4, 5, 6, 7, 8, 9, 10, 11, 12, 13, 250, 255] :=
  ⟨by decide,
    (c8_bytes_roundtrip [0, 1, 2, 3, 4, 5, 6, 7, 8, 9, 10, 11, 12, 13, 250, 255]
      (by decide)).2 rfl⟩

/-- The input of C1: four identifiers at one timestamp with payloads 0, 1, 2
and 5 — already deduplicated and sorted. -/
def c1Input : List KS :=
  [⟨ksBytes 100 0, by decide⟩, ⟨ksBytes 100 1, by decide⟩,
    ⟨ksBytes 100 2, by decide⟩, ⟨ksBytes 100 5, by decide⟩]

set_option maxRecDepth 100000 in
/-- C1 (code bug): decoding the buffer produced by compress does not return
the sorted deduplicated input: the run 0,1,2 is emitted as Raw(0) plus
PayloadRange(2), but the encoder then computes the next delta relative to the
first payload of the run (1) instead of its last (2), emitting delta 4, so
the decoder reconstructs payload 6 where the input had payload 5. -/
theorem c1_roundtrip_broken :
    dedupGo [] c1Input = c1Input ∧
    isSortedKS c1Input = true ∧
    runIter 10 (initIter (compress c1Input))
      = some (.ok [ksBytes 100 0, ksBytes 100 1, ksBytes 100 2, ksBytes 100 6]) ∧
    [ksBytes 100 0, ksBytes 100 1, ksBytes 100 2, ksBytes 100 6]
      ≠ c1Input.map Subtype.val :=
  ⟨rfl, rfl, rfl, by decide⟩

/-- The input of C2: payloads 3, 4, 5, 9 at one timestamp. -/
def c2Input : List KS :=
  [⟨ksBytes 200 3, by decide⟩, ⟨ksBytes 200 4, by decide⟩,
    ⟨ksBytes 200 5, by decide⟩, ⟨ksBytes 200 9, by decide⟩]

/-- C2 (code bug): after the PayloadRange covering payloads 4 and 5, the next
emitted record is PayloadDelta(5) = 9 - 4, computed relative to the first
payload of the run: the assignment of lastValue to the last consumed payload
is overwritten by the loop-end `lastValue = v`. The claim requires the delta
to be computed relative to the run's last payload, which would give
PayloadDelta(4) = 9 - 5. -/
theorem c2_lastValue_clobbered :
    appendCompressed c2Input = 0 :: (ksBytes 200 3 ++ [193, 2, 129, 5]) ∧
    (0 :: (ksBytes 200 3 ++ [193, 2, 129, 5]) : Bytes)
      ≠ 0 :: (ksBytes 200 3 ++ [193, 2, 129, 4]) :=
  ⟨rfl, by decide⟩

/-- The input of C5: payloads 0, 1, 2 and 2^128 - 1 at one timestamp. -/
def c5Input : List KS :=
  [⟨ksBytes 400 0, by decide⟩, ⟨ksBytes 400 1, by decide⟩,
    ⟨ksBytes 400 2, by decide⟩, ⟨ksBytes 400 (2 ^ 128 - 1), by decide⟩]

set_option maxRecDepth 100000 in
/-- C5 (code bug): the decoded sequence is not always strictly ascending.
With payloads 0, 1, 2 and 2^128 - 1 at one timestamp, the delta after the
PayloadRange is computed from the run's first payload, so the decoder adds it
on top of the run's last payload and wraps around: the fourth decoded
identifier has payload 0 again, a duplicate of the first. -/
theorem c5_not_strictly_ascending :
    runIter 10 (initIter (compress c5Input))
      = some (.ok [ksBytes 400 0, ksBytes 400 1, ksBytes 400 2, ksBytes 400 0]) ∧
    strictlyAscending [ksBytes 400 0, ksBytes 400 1, ksBytes 400 2, ksBytes 400 0]
      = false :=
  ⟨rfl, rfl⟩

/-- The input of the C9 counterexample: an isolated consecutive pair. -/
def c9Pair : List KS := [⟨ksBytes 300 0, by decide⟩, ⟨ksBytes 300 1, by decide⟩]

/-- The three-element run used for the amended C9. -/
def c9Triple : List KS :=
  [⟨ksBytes 301 0, by decide⟩, ⟨ksBytes 301 1, by decide⟩, ⟨ksBytes 301 2, by decide⟩]

/-- C9 counterexample: for two identifiers at one timestamp with payloads 0
and 1, the encoder emits a PayloadDelta record (tag byte 129 = 128 | 1)
carrying delta exactly 1, not a PayloadRange record (whose tag bits would be
192). -/
theorem c9_counterexample :
    appendCompressed c9Pair = 0 :: (ksBytes 300 0 ++ [129, 1]) ∧
    129 &&& 192 = 128 ∧ (129 : Nat) &&& 192 ≠ 192 :=
  ⟨rfl, by decide, by decide⟩

/-- C9 amended: a consecutive step is encoded as PayloadRange only when at
least one further identifier continues the run; an isolated consecutive pair
is encoded as a PayloadDelta record carrying delta exactly 1 (tag 129, delta
byte 1), while a run with a continuation is encoded as PayloadRange (tag 193,
count byte 2). -/
theorem c9_delta_one_on_isolated_pair :
    appendCompressed c9Pair = 0 :: (ksBytes 300 0 ++ [129, 1]) ∧
    appendCompressed c9Triple = 0 :: (ksBytes 301 0 ++ [193, 2]) :=
  ⟨rfl, rfl⟩

/-- References to the KSUID arrays that exist during a compress call: the
caller's argument array (ids) and the uniqueIds array that appendCompressed
creates at line 80. In-place mutation of an array is modelled as an update of
a store at the reference the operation is invoked on. -/
inductive ArrRef where
  | argIds
  | uniq
deriving DecidableEq

/-- A store assigning each array reference its current contents. -/
def Store : Type := ArrRef → List KS

def readArr (st : Store) (r : ArrRef) : List KS := st r

def writeArr (st : Store) (r : ArrRef) (v : List KS) : Store :=
  fun q => if q = r then v else st q

/-- sort (src/sort.ts lines 7-10) as the source invokes it: it sorts, in
place, whichever array reference it is handed, writing the sorted contents
back through that reference. -/
def sortInPlace (r : ArrRef) (st : Store) : Store :=
  writeArr st r (sortKS (readArr st r))

/-- The dedup loop of appendCompressed (src/compressed-set.ts lines 83-89) on
the store: it iterates over the contents of the ids argument, pushing every
unseen element onto the uniqueIds array; all its writes go through the uniq
reference. -/
def dedupLoopSt (seen : List KS) : List KS → Store → Store
  | [], st => st
  | id :: tl, st =>
    if id ∈ seen then dedupLoopSt seen tl st
    else dedupLoopSt (id :: seen) tl (writeArr st .uniq (readArr st .uniq ++ [id]))

/-- The sort step of appendCompressed (lines 91-93): sort(uniqueIds) is
invoked on the uniq reference when uniqueIds is not already sorted. -/
def sortPhase (st : Store) : Store :=
  if isSortedKS (readArr st .uniq) then st else sortInPlace .uniq st

/-- The emission part of appendCompressed (lines 95-188): it only reads the
uniqueIds array (writes go to the output Buffer, which is not a KSUID array),
so it returns the store unchanged alongside the bytes. -/
def encodePhase (st : Store) : Bytes × Store :=
  match readArr st .uniq with
  | [] => ([], st)
  | first :: rest =>
    (0 :: (first.val ++ encodeLoop rest.length rest (ksTimestamp first) (ksPayloadU first)),
      st)

/-- appendCompressed (src/compressed-set.ts lines 74-189) as a store
transformer: line 80 creates the empty uniqueIds array, the dedup loop fills
it by reading ids, line 92 invokes the in-place sort on the uniqueIds
reference, and the emission loop reads uniqueIds. The final store is derived
from these operations, not assumed. -/
def appendCompressedSt (st : Store) : Bytes × Store :=
  if (readArr st .argIds).isEmpty then ([], st)
  else
    encodePhase (sortPhase (dedupLoopSt [] (readArr st .argIds) (writeArr st .uniq [])))

/-- compress (src/compressed-set.ts lines 23-28) on a store holding the
caller's argument array. -/
def compressSt (ids : List KS) : Bytes × Store :=
  appendCompressedSt (writeArr (fun _ => []) .argIds ids)

theorem dedupLoopSt_argIds (seen pend : List KS) (st : Store) :
    readArr (dedupLoopSt seen pend st) .argIds = readArr st .argIds := by
  induction pend generalizing seen st with
  | nil => rfl
  | cons id tl ih =>
    unfold dedupLoopSt
    split
    · exact ih seen st
    · rw [ih]
      simp [readArr, writeArr]

theorem dedupLoopSt_uniq (seen pend : List KS) (st : Store) :
    readArr (dedupLoopSt seen pend st) .uniq
      = readArr st .uniq ++ dedupGo seen pend := by
  induction pend generalizing seen st with
  | nil => simp [dedupLoopSt, dedupGo]
  | cons id tl ih =>
    unfold dedupLoopSt dedupGo
    split
    · rw [ih]
    · rw [ih]
      simp [readArr, writeArr]

theorem sortPhase_argIds (st : Store) :
    readArr (sortPhase st) .argIds = readArr st .argIds := by
  unfold sortPhase
  split
  · rfl
  · simp [sortInPlace, readArr, writeArr]

theorem sortPhase_uniq (st : Store) :
    readArr (sortPhase st) .uniq
      = if isSortedKS (readArr st .uniq) then readArr st .uniq
        else sortKS (readArr st .uniq) := by
  unfold sortPhase
  split
  · simp [*]
  · simp [sortInPlace, readArr, writeArr, *]

theorem encodePhase_snd (st : Store) : (encodePhase st).2 = st := by
  unfold encodePhase
  split <;> rfl

theorem encodePhase_fst (st : Store) :
    (encodePhase st).1
      = match readArr st .uniq with
        | [] => []
        | first :: rest =>
          0 :: (first.val ++ encodeLoop rest.length rest (ksTimestamp first) (ksPayloadU first)) := by
  unfold encodePhase
  cases readArr st .uniq <;> rfl

theorem appendCompressedSt_spec (st : Store) :
    (appendCompressedSt st).1 = appendCompressed (readArr st .argIds) ∧
    readArr (appendCompressedSt st).2 .argIds = readArr st .argIds := by
  have hUniq : readArr (sortPhase (dedupLoopSt [] (readArr st .argIds)
        (writeArr st .uniq []))) .uniq
      = if isSortedKS (dedupGo [] (readArr st .argIds))
        then dedupGo [] (readArr st .argIds)
        else sortKS (dedupGo [] (readArr st .argIds)) := by
    rw [sortPhase_uniq, dedupLoopSt_uniq]
    simp [readArr, writeArr]
  have hArg : readArr (sortPhase (dedupLoopSt [] (readArr st .argIds)
        (writeArr st .uniq []))) .argIds = readArr st .argIds := by
    rw [sortPhase_argIds, dedupLoopSt_argIds]
    simp [readArr, writeArr]
  constructor
  · unfold appendCompressedSt
    split
    · rename_i hemp
      unfold appendCompressed
      rw [if_pos hemp]
    · rename_i hemp
      rw [encodePhase_fst, hUniq]
      unfold appendCompressed
      rw [if_neg hemp]
  · unfold appendCompressedSt
    split
    · rfl
    · rw [encodePhase_snd]
      exact hArg

/-- C10: compress never mutates its argument: in the store rendering of the
call, where every in-place array operation updates the store at the reference
the source actually passes it, the argument array reads back unchanged after
the call — the dedup loop writes only through the uniqueIds reference and the
in-place sort is invoked on uniqueIds (line 92), never on ids — while the
returned bytes agree with the pure rendering of the encoder. -/
theorem c10_compress_no_mutation (ids : List KS) :
    readArr (compressSt ids).2 ArrRef.argIds = ids ∧
    (compressSt ids).1 = compress ids := by
  have h := appendCompressedSt_spec (writeArr (fun _ => []) ArrRef.argIds ids)
  have hid : readArr (writeArr (fun _ => []) ArrRef.argIds ids) ArrRef.argIds = ids := by
    simp [readArr, writeArr]
  constructor
  · unfold compressSt
    rw [h.2, hid]
  · unfold compressSt compress
    rw [h.1, hid]

end Ksuid
